import Mathlib

/-!
Verification development for the ServerManage cog
(src/servermanage/servermanage.py).

The cog stores, per guild, two per-category dictionaries:
an asset registry mapping an asset name to its stored filename
("icons" / "banners") and a schedule table mapping an "MM-DD" date key to
an asset name ("iconsDates" / "bannersDates").  Python dictionaries have
unique keys; we embed them as association lists over String keys, with
lookup, insert-or-update and delete operations mirroring dict semantics.
-/

namespace ServerManage

/-- Lookup in an association list: first entry whose key matches,
mirroring Python dict indexing d[k] (keys are unique in a real dict). -/
def alookup {α : Type} : List (String × α) → String → Option α
  | [], _ => none
  | p :: ps, k => if p.1 = k then some p.2 else alookup ps k

/-- Insert-or-update, mirroring Python dict assignment d[k] = v:
an existing key keeps its position and gets the new value, a fresh key is
appended at the end. -/
def ainsert {α : Type} : List (String × α) → String → α → List (String × α)
  | [], k, v => [(k, v)]
  | p :: ps, k, v => if p.1 = k then (k, v) :: ps else p :: ainsert ps k v

/-- Delete a key, mirroring Python del d[k] (a missing key leaves the list
unchanged, matching the tolerated-absence call sites). -/
def aerase {α : Type} : List (String × α) → String → List (String × α)
  | [], _ => []
  | p :: ps, k => if p.1 = k then aerase ps k else p :: aerase ps k

/-! ## Key-sorted listing

imageList renders dict(sorted(imageDates.items())): Python sorted on
(key, value) pairs with unique keys orders by key.  We embed the sort as an
insertion sort on the key; only membership matters for the claims. -/

/-- Insert one pair into a key-sorted list. -/
def insertByKey {α : Type} (p : String × α) :
    List (String × α) → List (String × α)
  | [] => [p]
  | q :: qs => if p.1 ≤ q.1 then p :: q :: qs else q :: insertByKey p qs

/-- Sort an association list by key, modelling sorted(d.items()). -/
def sortByKey {α : Type} : List (String × α) → List (String × α)
  | [] => []
  | p :: ps => insertByKey p (sortByKey ps)

/-! ## Dates

validDate(month, day) tries datetime(2020, month, day) and reports whether
the constructor raised ValueError.  We embed the constructor's validity
check from the datetime library: year in [1, 9999], month in [1, 12],
day in [1, days_in_month(year, month)], with February length depending on
the leap-year rule. -/

/-- The Gregorian leap-year rule used by the datetime library. -/
def pyIsLeap (year : Int) : Bool :=
  year % 4 = 0 && (year % 100 ≠ 0 || year % 400 = 0)

/-- Days in a month for a given year, as in the datetime library. -/
def pyDaysInMonth (year month : Int) : Int :=
  if month = 2 then (if pyIsLeap year then 29 else 28)
  else if month = 4 ∨ month = 6 ∨ month = 9 ∨ month = 11 then 30
  else 31

/-- Whether datetime(year, month, day) succeeds (no ValueError). -/
def pyDatetimeValid (year month day : Int) : Bool :=
  1 ≤ year && year ≤ 9999 && 1 ≤ month && month ≤ 12 &&
    1 ≤ day && day ≤ pyDaysInMonth year month

/-- ServerManage.validDate: try datetime(2020, month, day). -/
def validDate (month day : Int) : Bool :=
  pyDatetimeValid 2020 month day

/-- Month length of a real calendar date as the spec words it: month
lengths of the usual calendar with February 29 permitted. -/
def specMonthLength (month : Int) : Int :=
  if month = 2 then 29
  else if month = 4 ∨ month = 6 ∨ month = 9 ∨ month = 11 then 30
  else 31

/-- Modelled from the spec: a real calendar date is a month 1-12 with a
day within that month's length, February 29 permitted. -/
def isRealCalendarDate (month day : Int) : Prop :=
  1 ≤ month ∧ month ≤ 12 ∧ 1 ≤ day ∧ day ≤ specMonthLength month

/-! ## String helpers

pyLower embeds str.lower restricted to the ASCII range (the only case
folding the cog's string comparisons rely on); splitextExt embeds
os.path.splitext's extension component; pad2 embeds the zero padding of
strftime %m / %d. -/

/-- Lowercase a string character-wise (ASCII case folding). -/
def pyLower (s : String) : String :=
  String.mk (s.toList.map Char.toLower)

/-- Index of the last occurrence of a character, -1 when absent,
mirroring str.rfind. -/
def rfindIdx (cs : List Char) (c : Char) : Int :=
  (cs.foldl
    (fun (acc : Int × Int) ch =>
      (acc.1 + 1, if ch = c then acc.1 else acc.2))
    (0, -1)).2

/-- The extension part of os.path.splitext(p): the suffix from the last
dot, provided that dot comes after the last path separator and some
non-dot character stands between them (leading dots never start an
extension). -/
def splitextExt (s : String) : String :=
  let cs := s.toList
  let sepI := rfindIdx cs '/'
  let dotI := rfindIdx cs '.'
  if sepI < dotI &&
      (List.range cs.length).any
        (fun i => decide (sepI < (i : Int)) && decide ((i : Int) < dotI) &&
          cs.getD i '.' ≠ '.') then
    String.mk (cs.drop dotI.toNat)
  else
    ""

/-- Zero-pad a number to two digits, as strftime %m and %d do. -/
def pad2 (n : Nat) : String :=
  if n < 10 then "0" ++ toString n else toString n

/-- The schedule key datetime(2020, month, day).strftime of the pattern
month-dash-day: the zero-padded month and day joined by a dash. -/
def storageDate (month day : Int) : String :=
  pad2 month.toNat ++ "-" ++ pad2 day.toNat

/-! ## Data model

BASE_GUILD registers, per guild, the four dictionaries icons, iconsDates,
banners and bannersDates, all initially empty.  The command methods pick
the pair of dictionaries through getattr on the imageType string, which is
always one of icons or banners. -/

/-- The imageType parameter: one of icons or banners. -/
inductive ImageType where
  | icons
  | banners
deriving DecidableEq

/-- The per-image dictionary stored in the registry (imageDict in
imageAdd): it records the stored filename. -/
structure ImageDetails where
  filename : String
deriving DecidableEq

/-- Per-guild configuration: the four dictionaries of BASE_GUILD. -/
structure GuildState where
  icons : List (String × ImageDetails)
  iconsDates : List (String × String)
  banners : List (String × ImageDetails)
  bannersDates : List (String × String)
deriving DecidableEq

/-- The registered empty default BASE_GUILD. -/
def initialGuildState : GuildState :=
  { icons := [], iconsDates := [], banners := [], bannersDates := [] }

/-- getattr(config.guild(guild), imageType): the asset registry of the
given category. -/
def imagesOf (s : GuildState) : ImageType → List (String × ImageDetails)
  | .icons => s.icons
  | .banners => s.banners

/-- getattr(config.guild(guild), imageType + Dates): the schedule table of
the given category. -/
def datesOf (s : GuildState) : ImageType → List (String × String)
  | .icons => s.iconsDates
  | .banners => s.bannersDates

/-- Write back the asset registry of a category. -/
def setImagesOf (s : GuildState) :
    ImageType → List (String × ImageDetails) → GuildState
  | .icons, v => { s with icons := v }
  | .banners, v => { s with banners := v }

/-- Write back the schedule table of a category. -/
def setDatesOf (s : GuildState) :
    ImageType → List (String × String) → GuildState
  | .icons, v => { s with iconsDates := v }
  | .banners, v => { s with bannersDates := v }

/-- getSingularImageType restricted to the two defined categories. -/
def getSingularImageType : ImageType → String
  | .icons => "icon"
  | .banners => "banner"

/-- The directory-name string of a category. -/
def imageTypeName : ImageType → String
  | .icons => "icons"
  | .banners => "banners"

/-- The stored file system, path to attachment bytes; the bytes are kept
abstract as a Nat identifier. -/
abbrev FileSys : Type := List (String × Nat)

/-- getFullFilepath: dataFolder, guild id, category directory and the
stored filename joined by slashes. -/
def getFullFilepath (dataFolder : String) (guildId : Nat)
    (imageDetails : ImageDetails) (imageType : ImageType) : String :=
  dataFolder ++ "/" ++ toString guildId ++ "/" ++ imageTypeName imageType
    ++ "/" ++ imageDetails.filename

/-! ## Attachment validation -/

/-- A message attachment: filename, optional pixel dimensions (absent for
non-images) and abstract byte content. -/
structure Attachment where
  filename : String
  width : Option Nat
  height : Option Nat
  content : Nat
deriving DecidableEq

/-- Python truthiness of an optional dimension: None and 0 are falsy. -/
def pyFalsy : Option Nat → Bool
  | none => true
  | some n => n = 0

/-- The three validation errors raised by validateImageAttachment. -/
inductive ValError where
  | invalidAttachments
  | invalidFile
  | invalidImage
deriving DecidableEq

instance {ε α : Type} [DecidableEq ε] [DecidableEq α] :
    DecidableEq (Except ε α) := fun a b =>
  match a, b with
  | .error e, .error e' =>
    if h : e = e' then .isTrue (by rw [h]) else .isFalse (by simp [h])
  | .ok v, .ok v' =>
    if h : v = v' then .isTrue (by rw [h]) else .isFalse (by simp [h])
  | .error _, .ok _ => .isFalse (by simp)
  | .ok _, .error _ => .isFalse (by simp)

/-- validateImageAttachment: requires exactly one attachment, a truthy
width or height, and a png or gif extension.  On success it returns the
single attachment that the caller then reads as attachments[0]. -/
def validateImageAttachment (attachments : List Attachment) :
    Except ValError Attachment :=
  match attachments with
  | [image] =>
    if pyFalsy image.height && pyFalsy image.width then
      .error .invalidFile
    else if [".png", ".gif"].contains (pyLower (splitextExt image.filename))
      then .ok image
    else .error .invalidImage
  | _ => .error .invalidAttachments

/-! ## Command operations -/

/-- Outcome of imageAdd, matching the early returns in order. -/
inductive AddResult where
  | validationFailed (e : ValError)
  | timedOut
  | declined
  | saved
deriving DecidableEq

/-- imageAdd: validate the attachment; if the name already exists, demand
a confirming reply (none models the 30-second timeout) whose lowercased
text is the word yes; then write the file and the registry entry.  The
reply argument is only consulted on the overwrite path, as in the code. -/
def imageAdd (s : GuildState) (fs : FileSys) (t : ImageType) (name : String)
    (attachments : List Attachment) (reply : Option String)
    (dataFolder : String) (guildId : Nat) :
    GuildState × FileSys × AddResult :=
  match validateImageAttachment attachments with
  | .error e => (s, fs, .validationFailed e)
  | .ok image =>
    let images := imagesOf s t
    let gate : Option AddResult :=
      if (alookup images name).isSome then
        match reply with
        | none => some .timedOut
        | some r => if pyLower r ≠ "yes" then some .declined else none
      else none
    match gate with
    | some res => (s, fs, res)
    | none =>
      let extension := pyLower (splitextExt image.filename)
      let imageDict : ImageDetails := { filename := name ++ extension }
      let filepath := getFullFilepath dataFolder guildId imageDict t
      (setImagesOf s t (ainsert images name imageDict),
        ainsert fs filepath image.content, .saved)

/-- Outcome of imageRemove, matching the early returns in order. -/
inductive RemoveResult where
  | notFound
  | timedOut
  | declined
  | removed
deriving DecidableEq

/-- imageRemove: require the name to exist and a confirming reply whose
lowercased text is the word yes; delete the stored file (tolerating
absence), the registry entry, and every schedule entry whose value is the
removed name (collected in datesToRemove, then deleted). -/
def imageRemove (s : GuildState) (fs : FileSys) (t : ImageType)
    (name : String) (reply : Option String) (dataFolder : String)
    (guildId : Nat) : GuildState × FileSys × RemoveResult :=
  let images := imagesOf s t
  match alookup images name with
  | none => (s, fs, .notFound)
  | some imageDetails =>
    match reply with
    | none => (s, fs, .timedOut)
    | some r =>
      if pyLower r ≠ "yes" then (s, fs, .declined)
      else
        let filepath := getFullFilepath dataFolder guildId imageDetails t
        let fs' := aerase fs filepath
        let s1 := setImagesOf s t (aerase images name)
        let dates := datesOf s1 t
        let datesToRemove :=
          (dates.filter (fun p => p.2 = name)).map Prod.fst
        let s2 := setDatesOf s1 t (datesToRemove.foldl aerase dates)
        (s2, fs', .removed)

/-- Outcome of imageDateSet. -/
inductive SetResult where
  | invalidDate
  | nameNotFound
  | set
deriving DecidableEq

/-- imageDateSet: validate the date, require the name to be registered,
then store or overwrite the schedule entry at the zero-padded key. -/
def imageDateSet (s : GuildState) (t : ImageType) (month day : Int)
    (name : String) : GuildState × SetResult :=
  if ¬ validDate month day then (s, .invalidDate)
  else if (alookup (imagesOf s t) name).isNone then (s, .nameNotFound)
  else
    (setDatesOf s t (ainsert (datesOf s t) (storageDate month day) name),
      .set)

/-- Outcome of imageDateReset. -/
inductive ResetResult where
  | invalidDate
  | removed
  | nothingScheduled
deriving DecidableEq

/-- imageDateReset: validate the date; delete the schedule entry when
present, otherwise report that nothing is scheduled. -/
def imageDateReset (s : GuildState) (t : ImageType) (month day : Int) :
    GuildState × ResetResult :=
  if ¬ validDate month day then (s, .invalidDate)
  else
    let dates := datesOf s t
    let key := storageDate month day
    if (alookup dates key).isSome then
      (setDatesOf s t (aerase dates key), .removed)
    else
      (s, .nothingScheduled)

/-- imageList: with an empty registry the command only reports that there
are no images (none); otherwise it renders the schedule entries sorted by
date key together with the set of registered names that appear in no
schedule entry (here kept as a filtered list). -/
def imageListEntries (s : GuildState) (t : ImageType) :
    Option (List (String × String) × List String) :=
  let allImages := imagesOf s t
  if allImages.isEmpty then none
  else
    let imageDates := sortByKey (datesOf s t)
    let notAssigned :=
      (allImages.map Prod.fst).filter
        (fun n => ¬ (imageDates.map Prod.snd).contains n)
    some (imageDates, notAssigned)

/-! ## Daily applier

checkGuildIcons and checkGuildBanners are textually parallel; we embed
them as one function over the category.  Inside them only the
discord.errors.Forbidden raised by guild.edit is caught: opening a
missing file (FileNotFoundError) and a registry lookup miss (KeyError)
raise out of the function, and imageLoop has no handler around its body,
so such an exception terminates the background task. -/

/-- What one per-guild, per-category daily check does. -/
inductive CheckOutcome where
  | skipped
  | applied
  | permissionLogged
  | uncaughtError
deriving DecidableEq

/-- Whether the outcome terminates the imageLoop task: only an exception
that escapes the check does. -/
def outcomeFatal : CheckOutcome → Bool
  | .uncaughtError => true
  | _ => false

/-- One daily check of a guild and category: look up today's key in the
schedule table (a miss is an ordinary skip); index the registry with the
scheduled name (a miss raises KeyError, uncaught); open the stored file
(a missing file raises FileNotFoundError, uncaught); call guild.edit,
where a Forbidden response is caught and logged. -/
def checkGuildImage (s : GuildState) (t : ImageType) (today : String)
    (fs : FileSys) (apiForbidden : Bool) (dataFolder : String)
    (guildId : Nat) : CheckOutcome :=
  match alookup (datesOf s t) today with
  | none => .skipped
  | some imageName =>
    match alookup (imagesOf s t) imageName with
    | none => .uncaughtError
    | some imageDetails =>
      let filepath := getFullFilepath dataFolder guildId imageDetails t
      if (alookup fs filepath).isNone then .uncaughtError
      else if apiForbidden then .permissionLogged
      else .applied

/-- checkGuildIcons. -/
def checkGuildIcons (s : GuildState) (today : String) (fs : FileSys)
    (apiForbidden : Bool) (dataFolder : String) (guildId : Nat) :
    CheckOutcome :=
  checkGuildImage s .icons today fs apiForbidden dataFolder guildId

/-- checkGuildBanners. -/
def checkGuildBanners (s : GuildState) (today : String) (fs : FileSys)
    (apiForbidden : Bool) (dataFolder : String) (guildId : Nat) :
    CheckOutcome :=
  checkGuildImage s .banners today fs apiForbidden dataFolder guildId

/-! ## The loop's day-rollover guard -/

/-- The fields of datetime.now() the loop guard reads: the calendar day
(year, month, day-of-month); the guard compares only the day field. -/
structure PyDatetime where
  year : Int
  month : Int
  day : Int
deriving DecidableEq

/-- Two instants lie on the same calendar day. -/
def sameCalendarDay (a b : PyDatetime) : Prop :=
  a.year = b.year ∧ a.month = b.month ∧ a.day = b.day

/-- One pass of the imageLoop body at instant now with the recorded
lastChecked: when the day-of-month differs the check fires and lastChecked
is set to now, otherwise nothing happens. -/
def loopStep (lastChecked now : PyDatetime) : Bool × PyDatetime :=
  if lastChecked.day ≠ now.day then (true, now) else (false, lastChecked)

/-- How many passes fire over a sequence of wake-up instants. -/
def loopFires (lastChecked : PyDatetime) : List PyDatetime → Nat
  | [] => 0
  | t :: ts =>
    let r := loopStep lastChecked t
    (if r.1 then 1 else 0) + loopFires r.2 ts
/-! ## Operations, reachability and the referential invariant -/

/-- One command-surface operation on a guild's configuration.  File and
path arguments do not influence the dictionaries, but are carried so each
operation is applied exactly as defined. -/
inductive Op where
  | add (t : ImageType) (name : String) (attachments : List Attachment)
      (reply : Option String) (fs : FileSys) (dataFolder : String)
      (guildId : Nat)
  | remove (t : ImageType) (name : String) (reply : Option String)
      (fs : FileSys) (dataFolder : String) (guildId : Nat)
  | setDate (t : ImageType) (month day : Int) (name : String)
  | resetDate (t : ImageType) (month day : Int)

/-- The guild configuration an operation leaves behind. -/
def applyOp (s : GuildState) : Op → GuildState
  | .add t name attachments reply fs dataFolder guildId =>
    (imageAdd s fs t name attachments reply dataFolder guildId).1
  | .remove t name reply fs dataFolder guildId =>
    (imageRemove s fs t name reply dataFolder guildId).1
  | .setDate t month day name => (imageDateSet s t month day name).1
  | .resetDate t month day => (imageDateReset s t month day).1

/-- Guild configurations reachable from the registered BASE_GUILD default
through command operations. -/
inductive Reachable : GuildState → Prop where
  | init : Reachable initialGuildState
  | step {s : GuildState} (op : Op) : Reachable s → Reachable (applyOp s op)

/-- Referential integrity: every schedule entry's asset name is a key of
the same category's asset registry. -/
def Inv (s : GuildState) : Prop :=
  ∀ t k n, alookup (datesOf s t) k = some n →
    (alookup (imagesOf s t) n).isSome = true

/-! ## Concrete sample data for instantiating the theorems -/

/-- A valid png attachment. -/
def sampleAttachment : Attachment :=
  { filename := "w2.PNG", width := some 200, height := some 200,
    content := 9 }

/-- An attachment with no truthy dimension (not an image). -/
def zeroDimAttachment : Attachment :=
  { filename := "w.png", width := some 0, height := none, content := 4 }

/-- An attachment whose extension is neither png nor gif. -/
def jpgAttachment : Attachment :=
  { filename := "w.jpg", width := some 5, height := some 5, content := 6 }

/-- A guild with two icons, one scheduled on two dates. -/
def sampleState : GuildState :=
  { initialGuildState with
    icons := [("winter", ⟨"winter.png"⟩), ("summer", ⟨"summer.gif"⟩)],
    iconsDates := [("12-25", "winter"), ("06-01", "summer"),
                   ("01-01", "winter")] }

/-- A guild with one icon and an empty schedule. -/
def smallState : GuildState :=
  { initialGuildState with icons := [("winter", ⟨"winter.png"⟩)] }

/-! # Theorems -/

theorem alookup_ainsert {α : Type} (l : List (String × α)) (k k' : String)
    (v : α) :
    alookup (ainsert l k v) k' = if k' = k then some v else alookup l k' := by
  induction l with
  | nil =>
    simp only [ainsert, alookup]
    by_cases hk : k' = k
    · simp [hk]
    · rw [if_neg hk, if_neg (fun h : k = k' => hk h.symm)]
  | cons p ps ih =>
    by_cases hp : p.1 = k
    · subst hp
      simp only [ainsert, if_pos rfl, alookup]
      by_cases hk : k' = p.1
      · simp [hk]
      · rw [if_neg (fun h : p.1 = k' => hk h.symm), if_neg hk,
          if_neg (fun h : p.1 = k' => hk h.symm)]
    · simp only [ainsert, if_neg hp, alookup, ih]
      by_cases hq : p.1 = k'
      · have hk : ¬ k' = k := fun h => hp (hq.trans h)
        simp [hq, hk]
      · simp [hq]

theorem alookup_aerase {α : Type} (l : List (String × α)) (k k' : String) :
    alookup (aerase l k) k' = if k' = k then none else alookup l k' := by
  induction l with
  | nil => simp [aerase, alookup]
  | cons p ps ih =>
    by_cases hp : p.1 = k
    · subst hp
      have h1 : aerase (p :: ps) p.1 = aerase ps p.1 := by simp [aerase]
      rw [h1, ih]
      by_cases hk : k' = p.1
      · simp [hk]
      · simp only [if_neg hk, alookup]
        rw [if_neg (fun h : p.1 = k' => hk h.symm)]
    · simp only [aerase, if_neg hp, alookup, ih]
      by_cases hq : p.1 = k'
      · have hk : ¬ k' = k := fun h => hp (hq.trans h)
        simp [hq, hk]
      · simp [hq]

theorem alookup_mem {α : Type} {l : List (String × α)} {k : String} {v : α}
    (h : alookup l k = some v) : (k, v) ∈ l := by
  induction l with
  | nil => simp [alookup] at h
  | cons p ps ih =>
    cases p with
    | mk a b =>
      by_cases hp : a = k
      · simp only [alookup, hp, if_true, Option.some.injEq] at h
        subst hp
        subst h
        exact List.mem_cons_self _ _
      · simp only [alookup, hp, if_false] at h
        exact List.mem_cons_of_mem _ (ih h)

theorem mem_alookup_of_nodup {α : Type} {l : List (String × α)} {k : String}
    {v : α} (hnd : (l.map Prod.fst).Nodup) (h : (k, v) ∈ l) :
    alookup l k = some v := by
  induction l with
  | nil => simp at h
  | cons p ps ih =>
    simp only [List.map_cons, List.nodup_cons] at hnd
    rcases List.mem_cons.mp h with h1 | h1
    · simp [alookup, ← h1]
    · have hp : p.1 ≠ k := by
        intro hpk
        exact hnd.1 (by simpa [hpk] using List.mem_map_of_mem Prod.fst h1)
      simp only [alookup, hp, if_false]
      exact ih hnd.2 h1

theorem mem_ainsert_self {α : Type} (l : List (String × α)) (k : String)
    (v : α) : (k, v) ∈ ainsert l k v :=
  alookup_mem (by simp [alookup_ainsert])

theorem alookup_foldl_aerase {α : Type} (ks : List String)
    (l : List (String × α)) (k : String) :
    alookup (ks.foldl aerase l) k =
      if k ∈ ks then none else alookup l k := by
  induction ks generalizing l with
  | nil => simp
  | cons k0 ks ih =>
    simp only [List.foldl_cons, ih, alookup_aerase, List.mem_cons]
    by_cases h0 : k = k0 <;> by_cases hks : k ∈ ks <;> simp [h0, hks]

theorem mem_insertByKey {α : Type} (x p : String × α)
    (l : List (String × α)) : x ∈ insertByKey p l ↔ x = p ∨ x ∈ l := by
  induction l with
  | nil => simp [insertByKey]
  | cons q qs ih =>
    by_cases h : p.1 ≤ q.1
    · simp [insertByKey, h]
    · simp only [insertByKey, h, if_false, List.mem_cons, ih]
      tauto

theorem mem_sortByKey {α : Type} (x : String × α) (l : List (String × α)) :
    x ∈ sortByKey l ↔ x ∈ l := by
  induction l with
  | nil => simp [sortByKey]
  | cons p ps ih => simp [sortByKey, mem_insertByKey, ih]

/-! ## Category accessor lemmas -/

theorem imagesOf_setImagesOf (s : GuildState) (t t' : ImageType)
    (v : List (String × ImageDetails)) :
    imagesOf (setImagesOf s t v) t' = if t' = t then v else imagesOf s t' := by
  cases t <;> cases t' <;> simp [setImagesOf, imagesOf]

theorem datesOf_setImagesOf (s : GuildState) (t t' : ImageType)
    (v : List (String × ImageDetails)) :
    datesOf (setImagesOf s t v) t' = datesOf s t' := by
  cases t <;> cases t' <;> rfl

theorem imagesOf_setDatesOf (s : GuildState) (t t' : ImageType)
    (v : List (String × String)) :
    imagesOf (setDatesOf s t v) t' = imagesOf s t' := by
  cases t <;> cases t' <;> rfl

theorem datesOf_setDatesOf (s : GuildState) (t t' : ImageType)
    (v : List (String × String)) :
    datesOf (setDatesOf s t v) t' = if t' = t then v else datesOf s t' := by
  cases t <;> cases t' <;> simp [setDatesOf, datesOf]

/-! ## Helper lemmas about the operations -/

theorem alookup_ne_nil {α : Type} {l : List (String × α)} {k : String}
    (h : (alookup l k).isSome = true) : l.isEmpty = false := by
  cases l with
  | nil => simp [alookup] at h
  | cons p ps => rfl

theorem mem_aerase {α : Type} {x : String × α} {l : List (String × α)}
    {k : String} (h : x ∈ aerase l k) : x ∈ l ∧ x.1 ≠ k := by
  induction l with
  | nil => simp [aerase] at h
  | cons p ps ih =>
    by_cases hp : p.1 = k
    · simp only [aerase, hp, if_true] at h
      have := ih h
      exact ⟨List.mem_cons_of_mem _ this.1, this.2⟩
    · simp only [aerase, hp, if_false, List.mem_cons] at h
      rcases h with h | h
      · exact ⟨List.mem_cons.mpr (Or.inl h), by rw [h]; exact hp⟩
      · have := ih h
        exact ⟨List.mem_cons_of_mem _ this.1, this.2⟩

theorem mem_removeKeys {l : List (String × String)} {name k : String}
    (hnd : (l.map Prod.fst).Nodup) :
    k ∈ (l.filter (fun p => p.2 = name)).map Prod.fst ↔
      alookup l k = some name := by
  constructor
  · intro h
    rcases List.mem_map.mp h with ⟨p, hp, hk⟩
    rcases List.mem_filter.mp hp with ⟨hmem, hval⟩
    have hv : p.2 = name := by simpa using hval
    have hx : p = (k, name) := by
      cases p
      simp only at hk hv
      rw [hk, hv]
    exact mem_alookup_of_nodup hnd (hx ▸ hmem)
  · intro h
    exact List.mem_map.mpr
      ⟨(k, name), List.mem_filter.mpr ⟨alookup_mem h, by simp⟩, rfl⟩

theorem removeKeys_sub {l : List (String × String)} {name k : String}
    (h : alookup l k = some name) :
    k ∈ (l.filter (fun p => p.2 = name)).map Prod.fst :=
  List.mem_map.mpr
    ⟨(k, name), List.mem_filter.mpr ⟨alookup_mem h, by simp⟩, rfl⟩

/-! ## Claim theorems -/

/-- C3: validDate(month, day) returns true exactly for the real calendar
dates: month in 1-12 and day within that month's length, with
February 29 permitted via the fixed reference year 2020, and false for
every other pair (such as month 2 day 30 or month 13). -/
theorem validDate_iff_realCalendarDate (month day : Int) :
    validDate month day = true ↔ isRealCalendarDate month day := by
  have hleap : pyIsLeap 2020 = true := by decide
  simp only [validDate, pyDatetimeValid, pyDaysInMonth, hleap,
    isRealCalendarDate, specMonthLength, Bool.and_eq_true,
    decide_eq_true_eq, if_true]
  split_ifs <;> omega

/-- C4: imageDateSet leaves the configuration unchanged when the date is
not a real calendar date or the name is not registered; otherwise it
creates or overwrites the schedule entry at the zero-padded key
month-dash-day to map to the name, touching no other entry and no
registry. -/
theorem imageDateSet_spec (s : GuildState) (t : ImageType)
    (month day : Int) (name : String) :
    ((validDate month day = false ∨ alookup (imagesOf s t) name = none) →
      (imageDateSet s t month day name).1 = s) ∧
    (validDate month day = true →
      (alookup (imagesOf s t) name).isSome = true →
      (imageDateSet s t month day name).2 = .set ∧
      alookup (datesOf (imageDateSet s t month day name).1 t)
        (storageDate month day) = some name ∧
      (∀ k, k ≠ storageDate month day →
        alookup (datesOf (imageDateSet s t month day name).1 t) k =
          alookup (datesOf s t) k) ∧
      (∀ t', imagesOf (imageDateSet s t month day name).1 t' =
        imagesOf s t')) := by
  constructor
  · intro h
    rcases h with h | h
    · have hv : ¬ validDate month day = true := by rw [h]; simp
      simp [imageDateSet, hv]
    · by_cases hv : validDate month day = true
      · simp [imageDateSet, hv, h]
      · simp [imageDateSet, hv]
  · intro hv hn
    rcases Option.isSome_iff_exists.mp hn with ⟨d, hd⟩
    refine ⟨?_, ?_, ?_, ?_⟩
    · simp [imageDateSet, hv, hd]
    · simp [imageDateSet, hv, hd, datesOf_setDatesOf, alookup_ainsert]
    · intro k hk
      simp [imageDateSet, hv, hd, datesOf_setDatesOf, alookup_ainsert, hk]
    · intro t'
      simp [imageDateSet, hv, hd, imagesOf_setDatesOf]

/-- Witness for C4: on a concrete guild, setting March 7 for a registered
icon stores it under the zero-padded key, and an invalid date (February
30) changes nothing. -/
theorem imageDateSet_spec_witness :
    (imageDateSet smallState .icons 3 7 "winter").2 = .set ∧
    alookup (datesOf (imageDateSet smallState .icons 3 7 "winter").1 .icons)
      "03-07" = some "winter" ∧
    (imageDateSet smallState .icons 2 30 "winter").1 = smallState := by
  have h := (imageDateSet_spec smallState .icons 3 7 "winter").2
    (by decide) (by decide)
  have h2 := (imageDateSet_spec smallState .icons 2 30 "winter").1
    (Or.inl (by decide))
  have hk : storageDate 3 7 = "03-07" := by decide
  exact ⟨h.1, by rw [← hk]; exact h.2.1, h2⟩

/-- C1: after a confirmed yes reply, imageRemove deletes the registry
mapping of the removed name, leaves every other registry mapping in
place, deletes exactly the schedule entries whose value is the removed
name and leaves every schedule entry referencing a different name
unchanged. -/
theorem imageRemove_cascade (s : GuildState) (fs : FileSys) (t : ImageType)
    (name r dataFolder : String) (guildId : Nat)
    (hname : (alookup (imagesOf s t) name).isSome = true)
    (hyes : pyLower r = "yes")
    (hnd : ((datesOf s t).map Prod.fst).Nodup) :
    (imageRemove s fs t name (some r) dataFolder guildId).2.2 = .removed ∧
    alookup
      (imagesOf (imageRemove s fs t name (some r) dataFolder guildId).1 t)
      name = none ∧
    (∀ n', n' ≠ name →
      alookup
        (imagesOf (imageRemove s fs t name (some r) dataFolder guildId).1 t)
        n' = alookup (imagesOf s t) n') ∧
    (∀ k,
      alookup
        (datesOf (imageRemove s fs t name (some r) dataFolder guildId).1 t)
        k =
      if alookup (datesOf s t) k = some name then none
      else alookup (datesOf s t) k) := by
  rcases Option.isSome_iff_exists.mp hname with ⟨d, hd⟩
  have hne : ¬ pyLower r ≠ "yes" := by rw [hyes]; simp
  refine ⟨?_, ?_, ?_, ?_⟩
  · simp [imageRemove, hd, hne]
  · simp [imageRemove, hd, hne, imagesOf_setDatesOf, imagesOf_setImagesOf,
      alookup_aerase]
  · intro n' hn'
    simp [imageRemove, hd, hne, imagesOf_setDatesOf, imagesOf_setImagesOf,
      alookup_aerase, hn']
  · intro k
    have hdt :
        datesOf (imageRemove s fs t name (some r) dataFolder guildId).1 t =
        ((((datesOf s t).filter (fun p => p.2 = name)).map
          Prod.fst).foldl aerase (datesOf s t)) := by
      simp [imageRemove, hd, hne, datesOf_setDatesOf, datesOf_setImagesOf]
    rw [hdt, alookup_foldl_aerase]
    by_cases hk : alookup (datesOf s t) k = some name
    · rw [if_pos (removeKeys_sub hk), if_pos hk]
    · rw [if_neg (fun hm => hk ((mem_removeKeys hnd).mp hm)), if_neg hk]

/-- Witness for C1: removing the icon scheduled on two dates deletes its
mapping and both of its schedule entries while the other icon's entry
survives. -/
theorem imageRemove_cascade_witness :
    (imageRemove sampleState [] .icons "winter" (some "Yes") "df" 7).2.2 =
      .removed ∧
    alookup
      (imagesOf (imageRemove sampleState [] .icons "winter" (some "Yes")
        "df" 7).1 .icons) "winter" = none ∧
    alookup
      (datesOf (imageRemove sampleState [] .icons "winter" (some "Yes")
        "df" 7).1 .icons) "12-25" = none ∧
    alookup
      (datesOf (imageRemove sampleState [] .icons "winter" (some "Yes")
        "df" 7).1 .icons) "06-01" = some "summer" := by
  have h := imageRemove_cascade sampleState [] .icons "winter" "Yes" "df" 7
    (by decide) (by decide) (by decide)
  refine ⟨h.1, h.2.1, ?_, ?_⟩
  · have hk := h.2.2.2 "12-25"
    rw [hk, if_pos (by decide)]
  · have hk := h.2.2.2 "06-01"
    rw [hk, if_neg (by decide)]
    decide

/-- C2: adding under a name that already exists overwrites the stored
file and the registry mapping only when the confirmation reply's
lowercased text is the word yes; a timeout (no reply) or any other reply
leaves the configuration and the file store entirely unchanged. -/
theorem imageAdd_overwrite_guard (s : GuildState) (fs : FileSys)
    (t : ImageType) (name : String) (atts : List Attachment)
    (dataFolder : String) (guildId : Nat) (image : Attachment)
    (hval : validateImageAttachment atts = .ok image)
    (hexists : (alookup (imagesOf s t) name).isSome = true) :
    imageAdd s fs t name atts none dataFolder guildId =
      (s, fs, .timedOut) ∧
    (∀ r, pyLower r ≠ "yes" →
      imageAdd s fs t name atts (some r) dataFolder guildId =
        (s, fs, .declined)) ∧
    (∀ r, pyLower r = "yes" →
      (imageAdd s fs t name atts (some r) dataFolder guildId).2.2 =
        .saved ∧
      alookup
        (imagesOf (imageAdd s fs t name atts (some r) dataFolder
          guildId).1 t) name =
        some ⟨name ++ pyLower (splitextExt image.filename)⟩ ∧
      alookup (imageAdd s fs t name atts (some r) dataFolder guildId).2.1
        (getFullFilepath dataFolder guildId
          ⟨name ++ pyLower (splitextExt image.filename)⟩ t) =
        some image.content) := by
  refine ⟨?_, ?_, ?_⟩
  · simp [imageAdd, hval, hexists]
  · intro r hr
    simp [imageAdd, hval, hexists, hr]
  · intro r hr
    have hne : ¬ pyLower r ≠ "yes" := by rw [hr]; simp
    refine ⟨?_, ?_, ?_⟩
    · simp [imageAdd, hval, hexists, hne]
    · simp [imageAdd, hval, hexists, hne, imagesOf_setImagesOf,
        alookup_ainsert]
    · simp [imageAdd, hval, hexists, hne, alookup_ainsert]

/-- Witness for C2: on a concrete guild whose registry already holds the
name, a timeout and a negative reply leave everything unchanged, and an
affirmative reply saves. -/
theorem imageAdd_overwrite_guard_witness :
    imageAdd smallState [] .icons "winter" [sampleAttachment] none
      "df" 7 = (smallState, [], .timedOut) ∧
    imageAdd smallState [] .icons "winter" [sampleAttachment] (some "no")
      "df" 7 = (smallState, [], .declined) ∧
    (imageAdd smallState [] .icons "winter" [sampleAttachment]
      (some "YES") "df" 7).2.2 = .saved := by
  have h := imageAdd_overwrite_guard smallState [] .icons "winter"
    [sampleAttachment] "df" 7 sampleAttachment (by decide) (by decide)
  exact ⟨h.1, h.2.1 "no" (by decide), (h.2.2 "YES" (by decide)).1⟩

/-- C7: imageAdd rejects a message without exactly one attachment, a
single attachment with no truthy width or height, and a single attachment
whose extension is neither png nor gif; in every such case no file is
written and no registry mapping is created. -/
theorem imageAdd_rejects_invalid (s : GuildState) (fs : FileSys)
    (t : ImageType) (name : String) (atts : List Attachment)
    (reply : Option String) (dataFolder : String) (guildId : Nat) :
    (atts.length ≠ 1 →
      imageAdd s fs t name atts reply dataFolder guildId =
        (s, fs, .validationFailed .invalidAttachments)) ∧
    (∀ a, atts = [a] → pyFalsy a.height = true → pyFalsy a.width = true →
      imageAdd s fs t name atts reply dataFolder guildId =
        (s, fs, .validationFailed .invalidFile)) ∧
    (∀ a, atts = [a] →
      pyLower (splitextExt a.filename) ≠ ".png" →
      pyLower (splitextExt a.filename) ≠ ".gif" →
      (imageAdd s fs t name atts reply dataFolder guildId).1 = s ∧
      (imageAdd s fs t name atts reply dataFolder guildId).2.1 = fs ∧
      ((imageAdd s fs t name atts reply dataFolder guildId).2.2 =
          .validationFailed .invalidImage ∨
        (imageAdd s fs t name atts reply dataFolder guildId).2.2 =
          .validationFailed .invalidFile)) := by
  refine ⟨?_, ?_, ?_⟩
  · intro h
    rcases atts with _ | ⟨a, _ | ⟨b, rest⟩⟩
    · simp [imageAdd, validateImageAttachment]
    · simp at h
    · simp [imageAdd, validateImageAttachment]
  · intro a ha h1 h2
    subst ha
    simp [imageAdd, validateImageAttachment, h1, h2]
  · intro a ha hpng hgif
    subst ha
    by_cases hb : (pyFalsy a.height && pyFalsy a.width) = true
    · simp [imageAdd, validateImageAttachment, hb]
    · simp [imageAdd, validateImageAttachment, hb, hpng, hgif]

/-- Witness for C7: no attachment, a zero-dimension attachment, and a jpg
attachment are each rejected on a concrete guild without touching it. -/
theorem imageAdd_rejects_invalid_witness :
    imageAdd smallState [] .icons "x" [] none "df" 7 =
      (smallState, [], .validationFailed .invalidAttachments) ∧
    imageAdd smallState [] .icons "x" [zeroDimAttachment] none "df" 7 =
      (smallState, [], .validationFailed .invalidFile) ∧
    (imageAdd smallState [] .icons "x" [jpgAttachment] none "df" 7).1 =
      smallState := by
  refine ⟨?_, ?_, ?_⟩
  · exact (imageAdd_rejects_invalid smallState [] .icons "x" [] none
      "df" 7).1 (by decide)
  · exact (imageAdd_rejects_invalid smallState [] .icons "x"
      [zeroDimAttachment] none "df" 7).2.1 zeroDimAttachment rfl
      (by decide) (by decide)
  · exact ((imageAdd_rejects_invalid smallState [] .icons "x"
      [jpgAttachment] none "df" 7).2.2 jpgAttachment rfl (by decide)
      (by decide)).1

/-- C10: both destructive confirmations (overwrite on add, and remove)
treat a reply as affirmative exactly when its lowercased text equals the
word yes: such a reply makes the operation proceed, and any other reply
aborts it with the configuration and file store unchanged. -/
theorem confirmation_iff_lowercase_yes (s : GuildState) (fs : FileSys)
    (t : ImageType) (name r : String) (atts : List Attachment)
    (image : Attachment) (dataFolder : String) (guildId : Nat)
    (hname : (alookup (imagesOf s t) name).isSome = true)
    (hval : validateImageAttachment atts = .ok image) :
    (pyLower r = "yes" →
      (imageRemove s fs t name (some r) dataFolder guildId).2.2 =
        .removed ∧
      alookup
        (imagesOf (imageRemove s fs t name (some r) dataFolder
          guildId).1 t) name = none ∧
      (imageAdd s fs t name atts (some r) dataFolder guildId).2.2 =
        .saved) ∧
    (pyLower r ≠ "yes" →
      imageRemove s fs t name (some r) dataFolder guildId =
        (s, fs, .declined) ∧
      imageAdd s fs t name atts (some r) dataFolder guildId =
        (s, fs, .declined)) := by
  rcases Option.isSome_iff_exists.mp hname with ⟨d, hd⟩
  constructor
  · intro hyes
    have hne : ¬ pyLower r ≠ "yes" := by rw [hyes]; simp
    refine ⟨?_, ?_, ?_⟩
    · simp [imageRemove, hd, hne]
    · simp [imageRemove, hd, hne, imagesOf_setDatesOf,
        imagesOf_setImagesOf, alookup_aerase]
    · simp [imageAdd, hval, hname, hne]
  · intro hno
    exact ⟨by simp [imageRemove, hd, hno],
      by simp [imageAdd, hval, hname, hno]⟩

/-- Witness for C10: on a concrete guild, the reply YES (uppercase)
proceeds for both operations and the reply nope aborts both unchanged. -/
theorem confirmation_iff_lowercase_yes_witness :
    ((imageRemove smallState [] .icons "winter" (some "YES") "df" 7).2.2 =
        .removed ∧
      alookup
        (imagesOf (imageRemove smallState [] .icons "winter" (some "YES")
          "df" 7).1 .icons) "winter" = none ∧
      (imageAdd smallState [] .icons "winter" [sampleAttachment]
        (some "YES") "df" 7).2.2 = .saved) ∧
    (imageRemove smallState [] .icons "winter" (some "nope") "df" 7 =
        (smallState, [], .declined) ∧
      imageAdd smallState [] .icons "winter" [sampleAttachment]
        (some "nope") "df" 7 = (smallState, [], .declined)) := by
  exact ⟨(confirmation_iff_lowercase_yes smallState [] .icons "winter"
      "YES" [sampleAttachment] sampleAttachment "df" 7 (by decide)
      (by decide)).1 (by decide),
    (confirmation_iff_lowercase_yes smallState [] .icons "winter"
      "nope" [sampleAttachment] sampleAttachment "df" 7 (by decide)
      (by decide)).2 (by decide)⟩

/-- C5: for a valid date and a registered name, setDate followed by list
shows the name at the zero-padded key; resetDate on that key removes the
entry, a subsequent list omits the key, and resetDate on a valid date
with no entry reports that nothing is scheduled and changes nothing. -/
theorem setDate_list_reset_roundtrip (s : GuildState) (t : ImageType)
    (month day : Int) (name : String)
    (hvd : validDate month day = true)
    (hname : (alookup (imagesOf s t) name).isSome = true) :
    (∃ es un,
      imageListEntries (imageDateSet s t month day name).1 t =
        some (es, un) ∧
      (storageDate month day, name) ∈ es) ∧
    (imageDateReset (imageDateSet s t month day name).1 t month day).2 =
      .removed ∧
    alookup
      (datesOf (imageDateReset (imageDateSet s t month day name).1 t
        month day).1 t) (storageDate month day) = none ∧
    (∃ es2 un2,
      imageListEntries (imageDateReset (imageDateSet s t month day
        name).1 t month day).1 t = some (es2, un2) ∧
      ∀ v, (storageDate month day, v) ∉ es2) ∧
    (alookup (datesOf s t) (storageDate month day) = none →
      imageDateReset s t month day = (s, .nothingScheduled)) := by
  rcases Option.isSome_iff_exists.mp hname with ⟨d, hd⟩
  have hs1 : (imageDateSet s t month day name).1 =
      setDatesOf s t
        (ainsert (datesOf s t) (storageDate month day) name) := by
    simp [imageDateSet, hvd, hd]
  have hdts1 : datesOf (imageDateSet s t month day name).1 t =
      ainsert (datesOf s t) (storageDate month day) name := by
    rw [hs1, datesOf_setDatesOf]
    simp
  have hims1 : imagesOf (imageDateSet s t month day name).1 t =
      imagesOf s t := by
    rw [hs1, imagesOf_setDatesOf]
  have hne1 : (imagesOf (imageDateSet s t month day name).1 t).isEmpty =
      false := by
    rw [hims1]
    exact alookup_ne_nil hname
  have hsome1 : (alookup (datesOf (imageDateSet s t month day name).1 t)
      (storageDate month day)).isSome = true := by
    rw [hdts1, alookup_ainsert]
    simp
  have hs2 : imageDateReset (imageDateSet s t month day name).1 t
      month day =
      (setDatesOf (imageDateSet s t month day name).1 t
        (aerase (datesOf (imageDateSet s t month day name).1 t)
          (storageDate month day)), .removed) := by
    simp [imageDateReset, hvd, hsome1]
  have hdts2 : datesOf (imageDateReset (imageDateSet s t month day
      name).1 t month day).1 t =
      aerase (ainsert (datesOf s t) (storageDate month day) name)
        (storageDate month day) := by
    rw [hs2]
    simp [datesOf_setDatesOf, hdts1]
  have hims2 : imagesOf (imageDateReset (imageDateSet s t month day
      name).1 t month day).1 t = imagesOf s t := by
    rw [hs2]
    simp only [imagesOf_setDatesOf, hims1]
  refine ⟨?_, ?_, ?_, ?_, ?_⟩
  · have hmem : (storageDate month day, name) ∈
        sortByKey (datesOf (imageDateSet s t month day name).1 t) := by
      rw [mem_sortByKey, hdts1]
      exact mem_ainsert_self _ _ _
    have hlist : ∃ un,
        imageListEntries (imageDateSet s t month day name).1 t =
        some (sortByKey (datesOf (imageDateSet s t month day name).1 t),
          un) := by
      simp only [imageListEntries, hne1, Bool.false_eq_true, if_false]
      exact ⟨_, rfl⟩
    rcases hlist with ⟨un, hun⟩
    exact ⟨_, un, hun, hmem⟩
  · rw [hs2]
  · rw [hdts2, alookup_aerase]
    simp
  · have hne2 : (imagesOf (imageDateReset (imageDateSet s t month day
        name).1 t month day).1 t).isEmpty = false := by
      rw [hims2]
      exact alookup_ne_nil hname
    have hlist : ∃ un,
        imageListEntries (imageDateReset (imageDateSet s t month day
          name).1 t month day).1 t =
        some (sortByKey (datesOf (imageDateReset (imageDateSet s t month
          day name).1 t month day).1 t), un) := by
      simp only [imageListEntries, hne2, Bool.false_eq_true, if_false]
      exact ⟨_, rfl⟩
    rcases hlist with ⟨un, hun⟩
    refine ⟨_, un, hun, ?_⟩
    intro v hv
    rw [mem_sortByKey, hdts2] at hv
    exact (mem_aerase hv).2 rfl
  · intro hnone
    simp [imageDateReset, hvd, hnone]

/-- Witness for C5: a concrete round trip on December 25. -/
theorem setDate_list_reset_roundtrip_witness :
    (∃ es un,
      imageListEntries (imageDateSet smallState .icons 12 25 "winter").1
        .icons = some (es, un) ∧ ("12-25", "winter") ∈ es) ∧
    (imageDateReset (imageDateSet smallState .icons 12 25 "winter").1
      .icons 12 25).2 = .removed ∧
    imageDateReset smallState .icons 12 25 =
      (smallState, .nothingScheduled) := by
  have h := setDate_list_reset_roundtrip smallState .icons 12 25 "winter"
    (by decide) (by decide)
  have hk : storageDate 12 25 = "12-25" := by decide
  exact ⟨by rw [← hk]; exact h.1, h.2.1, h.2.2.2.2 (by decide)⟩

/-- C6 counterexample: with today's key scheduled and the stored file
missing from disk, the daily check does not skip: it ends in an uncaught
exception (FileNotFoundError from open), which is fatal to the loop task,
refuting the claim that a missing stored file is treated as a skip. -/
theorem checkGuildIcons_missing_file_counterexample :
    checkGuildIcons sampleState "12-25" [] false "df" 7 =
      .uncaughtError ∧
    checkGuildIcons sampleState "12-25" [] false "df" 7 ≠ .skipped ∧
    outcomeFatal (checkGuildIcons sampleState "12-25" [] false "df" 7) =
      true := by
  decide

/-- C6 (amended): during a daily check, a permission-denied response from
the external update API is logged and is not fatal to the loop, and a
missing schedule mapping for today's key is a skip; but a missing stored
file raises an uncaught error that terminates the loop task instead of
being skipped. -/
theorem checkGuildImage_failure_semantics (s : GuildState) (t : ImageType)
    (today : String) (fs : FileSys) (b : Bool) (dataFolder : String)
    (guildId : Nat) :
    (alookup (datesOf s t) today = none →
      checkGuildImage s t today fs b dataFolder guildId = .skipped) ∧
    (∀ nm dt, alookup (datesOf s t) today = some nm →
      alookup (imagesOf s t) nm = some dt →
      (alookup fs (getFullFilepath dataFolder guildId dt t)).isSome =
        true →
      checkGuildImage s t today fs true dataFolder guildId =
        .permissionLogged ∧
      outcomeFatal .permissionLogged = false) ∧
    (∀ nm dt, alookup (datesOf s t) today = some nm →
      alookup (imagesOf s t) nm = some dt →
      alookup fs (getFullFilepath dataFolder guildId dt t) = none →
      checkGuildImage s t today fs b dataFolder guildId =
        .uncaughtError ∧
      outcomeFatal .uncaughtError = true) := by
  refine ⟨?_, ?_, ?_⟩
  · intro h
    simp [checkGuildImage, h]
  · intro nm dt h1 h2 h3
    have h3' :
        (alookup fs (getFullFilepath dataFolder guildId dt t)).isNone =
          false := by
      rcases Option.isSome_iff_exists.mp h3 with ⟨c, hc⟩
      rw [hc]
      rfl
    exact ⟨by simp [checkGuildImage, h1, h2, h3'], rfl⟩
  · intro nm dt h1 h2 h3
    exact ⟨by simp [checkGuildImage, h1, h2, h3], rfl⟩

/-- Witness for C6 (amended): on a concrete guild, a missing mapping
skips, a Forbidden API reply is logged and non-fatal, and a missing
stored file is the uncaught, loop-fatal case. -/
theorem checkGuildImage_failure_semantics_witness :
    checkGuildImage sampleState .icons "03-03" [] false "df" 7 =
      .skipped ∧
    checkGuildImage sampleState .icons "12-25"
      [("df/7/icons/winter.png", 3)] true "df" 7 = .permissionLogged ∧
    checkGuildImage sampleState .icons "12-25" [] false "df" 7 =
      .uncaughtError := by
  refine ⟨?_, ?_, ?_⟩
  · exact (checkGuildImage_failure_semantics sampleState .icons "03-03"
      [] false "df" 7).1 (by decide)
  · exact ((checkGuildImage_failure_semantics sampleState .icons "12-25"
      [("df/7/icons/winter.png", 3)] true "df" 7).2.1 "winter"
      ⟨"winter.png"⟩ (by decide) (by decide) (by decide)).1
  · exact ((checkGuildImage_failure_semantics sampleState .icons "12-25"
      [] false "df" 7).2.2 "winter" ⟨"winter.png"⟩ (by decide)
      (by decide) (by decide)).1

/-! ## State shapes of the four operations -/

theorem imageAdd_state_cases (s : GuildState) (fs : FileSys)
    (t : ImageType) (name : String) (atts : List Attachment)
    (reply : Option String) (dataFolder : String) (guildId : Nat) :
    (imageAdd s fs t name atts reply dataFolder guildId).1 = s ∨
    ∃ dict, (imageAdd s fs t name atts reply dataFolder guildId).1 =
      setImagesOf s t (ainsert (imagesOf s t) name dict) := by
  cases hv : validateImageAttachment atts with
  | error e => left; simp [imageAdd, hv]
  | ok image =>
    by_cases hex : (alookup (imagesOf s t) name).isSome = true
    · cases reply with
      | none => left; simp [imageAdd, hv, hex]
      | some r =>
        by_cases hr : pyLower r ≠ "yes"
        · left; simp [imageAdd, hv, hex, hr]
        · right
          exact ⟨{ filename := name ++ pyLower (splitextExt
            image.filename) }, by simp [imageAdd, hv, hex, hr]⟩
    · right
      exact ⟨{ filename := name ++ pyLower (splitextExt
        image.filename) }, by simp [imageAdd, hv, hex]⟩

theorem imageRemove_state_cases (s : GuildState) (fs : FileSys)
    (t : ImageType) (name : String) (reply : Option String)
    (dataFolder : String) (guildId : Nat) :
    (imageRemove s fs t name reply dataFolder guildId).1 = s ∨
    (imageRemove s fs t name reply dataFolder guildId).1 =
      setDatesOf (setImagesOf s t (aerase (imagesOf s t) name)) t
        ((((datesOf s t).filter (fun p => p.2 = name)).map
          Prod.fst).foldl aerase (datesOf s t)) := by
  cases hd : alookup (imagesOf s t) name with
  | none => left; simp [imageRemove, hd]
  | some d =>
    cases reply with
    | none => left; simp [imageRemove, hd]
    | some r =>
      by_cases hr : pyLower r ≠ "yes"
      · left; simp [imageRemove, hd, hr]
      · right; simp [imageRemove, hd, hr, datesOf_setImagesOf]

theorem imageDateSet_state_cases (s : GuildState) (t : ImageType)
    (month day : Int) (name : String) :
    (imageDateSet s t month day name).1 = s ∨
    ((alookup (imagesOf s t) name).isSome = true ∧
      (imageDateSet s t month day name).1 =
        setDatesOf s t
          (ainsert (datesOf s t) (storageDate month day) name)) := by
  by_cases hv : validDate month day = true
  · cases hx : alookup (imagesOf s t) name with
    | none => left; simp [imageDateSet, hv, hx]
    | some d =>
      right
      exact ⟨by simp [hx], by simp [imageDateSet, hv, hx]⟩
  · left; simp [imageDateSet, hv]

theorem imageDateReset_state_cases (s : GuildState) (t : ImageType)
    (month day : Int) :
    (imageDateReset s t month day).1 = s ∨
    (imageDateReset s t month day).1 =
      setDatesOf s t (aerase (datesOf s t) (storageDate month day)) := by
  by_cases hv : validDate month day = true
  · by_cases hk :
        (alookup (datesOf s t) (storageDate month day)).isSome = true
    · right; simp [imageDateReset, hv, hk]
    · left; simp [imageDateReset, hv, hk]
  · left; simp [imageDateReset, hv]

/-! ## Invariant preservation -/

theorem inv_setImages_ainsert (s : GuildState) (t : ImageType)
    (name : String) (dict : ImageDetails) (h : Inv s) :
    Inv (setImagesOf s t (ainsert (imagesOf s t) name dict)) := by
  intro t' k n hkn
  rw [datesOf_setImagesOf] at hkn
  rw [imagesOf_setImagesOf]
  by_cases ht : t' = t
  · rw [if_pos ht, alookup_ainsert]
    by_cases hn : n = name
    · simp [hn]
    · rw [if_neg hn, ← ht]
      exact h t' k n hkn
  · rw [if_neg ht]
    exact h t' k n hkn

theorem inv_remove_state (s : GuildState) (t : ImageType) (name : String)
    (h : Inv s) :
    Inv (setDatesOf (setImagesOf s t (aerase (imagesOf s t) name)) t
      ((((datesOf s t).filter (fun p => p.2 = name)).map
        Prod.fst).foldl aerase (datesOf s t))) := by
  intro t' k n hkn
  rw [imagesOf_setDatesOf, imagesOf_setImagesOf]
  by_cases ht : t' = t
  · subst ht
    rw [datesOf_setDatesOf, if_pos rfl, alookup_foldl_aerase] at hkn
    by_cases hk : k ∈ ((datesOf s t').filter
        (fun p => p.2 = name)).map Prod.fst
    · rw [if_pos hk] at hkn
      exact absurd hkn (by simp)
    · rw [if_neg hk] at hkn
      have hnn : n ≠ name := by
        intro he
        subst he
        exact hk (removeKeys_sub hkn)
      rw [if_pos rfl, alookup_aerase, if_neg hnn]
      exact h t' k n hkn
  · rw [datesOf_setDatesOf, if_neg ht, datesOf_setImagesOf] at hkn
    rw [if_neg ht]
    exact h t' k n hkn

theorem inv_setDates_ainsert (s : GuildState) (t : ImageType)
    (key name : String)
    (himg : (alookup (imagesOf s t) name).isSome = true) (h : Inv s) :
    Inv (setDatesOf s t (ainsert (datesOf s t) key name)) := by
  intro t' k n hkn
  rw [imagesOf_setDatesOf]
  by_cases ht : t' = t
  · subst ht
    rw [datesOf_setDatesOf, if_pos rfl, alookup_ainsert] at hkn
    by_cases hk : k = key
    · rw [if_pos hk] at hkn
      have hn : n = name := by injection hkn with hx; exact hx.symm
      rw [hn]
      exact himg
    · rw [if_neg hk] at hkn
      exact h t' k n hkn
  · rw [datesOf_setDatesOf, if_neg ht] at hkn
    exact h t' k n hkn

theorem inv_setDates_aerase (s : GuildState) (t : ImageType)
    (key : String) (h : Inv s) :
    Inv (setDatesOf s t (aerase (datesOf s t) key)) := by
  intro t' k n hkn
  rw [imagesOf_setDatesOf]
  by_cases ht : t' = t
  · subst ht
    rw [datesOf_setDatesOf, if_pos rfl, alookup_aerase] at hkn
    by_cases hk : k = key
    · rw [if_pos hk] at hkn
      exact absurd hkn (by simp)
    · rw [if_neg hk] at hkn
      exact h t' k n hkn
  · rw [datesOf_setDatesOf, if_neg ht] at hkn
    exact h t' k n hkn

/-- C8: every configuration reachable from the empty default through the
four command operations satisfies referential integrity: each schedule
entry's asset name is registered in the same category's asset registry
(imageDateSet refuses unknown names, imageRemove cascades deletion of
referencing schedule entries, and the other operations cannot break the
property). -/
theorem reachable_invariant (s : GuildState) (h : Reachable s) : Inv s := by
  induction h with
  | init =>
    intro t k n hkn
    cases t <;> simp [initialGuildState, datesOf, alookup] at hkn
  | @step s' op hr ih =>
    cases op with
    | add t name atts reply fs dataFolder guildId =>
      rcases imageAdd_state_cases s' fs t name atts reply dataFolder
        guildId with hc | ⟨dict, hc⟩
      · simpa [applyOp, hc] using ih
      · simpa [applyOp, hc] using inv_setImages_ainsert s' t name dict ih
    | remove t name reply fs dataFolder guildId =>
      rcases imageRemove_state_cases s' fs t name reply dataFolder
        guildId with hc | hc
      · simpa [applyOp, hc] using ih
      · simpa [applyOp, hc] using inv_remove_state s' t name ih
    | setDate t month day name =>
      rcases imageDateSet_state_cases s' t month day name with
        hc | ⟨himg, hc⟩
      · simpa [applyOp, hc] using ih
      · simpa [applyOp, hc] using
          inv_setDates_ainsert s' t (storageDate month day) name himg ih
    | resetDate t month day =>
      rcases imageDateReset_state_cases s' t month day with hc | hc
      · simpa [applyOp, hc] using ih
      · simpa [applyOp, hc] using
          inv_setDates_aerase s' t (storageDate month day) ih

/-- Witness for C8: the invariant holds at the concrete state reached by
adding an icon and then scheduling it. -/
theorem reachable_invariant_witness :
    Inv (applyOp (applyOp initialGuildState
      (.add .icons "winter" [sampleAttachment] none [] "df" 7))
      (.setDate .icons 12 25 "winter")) :=
  reachable_invariant _
    (Reachable.step (Op.setDate .icons 12 25 "winter")
      (Reachable.step (Op.add .icons "winter" [sampleAttachment] none []
        "df" 7) Reachable.init))

/-! ## Loop guard lemmas -/

theorem loopFires_eq_zero (d : Int) (ts : List PyDatetime)
    (lc : PyDatetime) (hts : ∀ t ∈ ts, t.day = d) (hlc : lc.day = d) :
    loopFires lc ts = 0 := by
  induction ts generalizing lc with
  | nil => rfl
  | cons t ts ih =>
    have ht : t.day = d := hts t (List.mem_cons_self _ _)
    have hstep : loopStep lc t = (false, lc) := by
      simp [loopStep, hlc, ht]
    simp only [loopFires, hstep]
    simpa using ih lc (fun x hx => hts x (List.mem_cons_of_mem _ hx)) hlc

theorem loopFires_le_one (d : Int) (ts : List PyDatetime)
    (lc : PyDatetime) (hts : ∀ t ∈ ts, t.day = d) :
    loopFires lc ts ≤ 1 := by
  induction ts generalizing lc with
  | nil => simp [loopFires]
  | cons t ts ih =>
    have ht : t.day = d := hts t (List.mem_cons_self _ _)
    have htail : ∀ x ∈ ts, x.day = d :=
      fun x hx => hts x (List.mem_cons_of_mem _ hx)
    by_cases h : lc.day ≠ t.day
    · have hstep : loopStep lc t = (true, t) := by simp [loopStep, h]
      simp only [loopFires, hstep]
      simp [loopFires_eq_zero d ts t htail ht]
    · have hstep : loopStep lc t = (false, lc) := by
        simp only [loopStep, if_neg h]
      simp only [loopFires, hstep]
      simpa using ih lc htail

theorem loopFires_eq_one (d : Int) (ts : List PyDatetime)
    (lc : PyDatetime) (hts : ∀ t ∈ ts, t.day = d) (hlc : lc.day ≠ d)
    (hne : ts ≠ []) : loopFires lc ts = 1 := by
  cases ts with
  | nil => exact absurd rfl hne
  | cons t ts =>
    have ht : t.day = d := hts t (List.mem_cons_self _ _)
    have h : lc.day ≠ t.day := by rw [ht]; exact hlc
    have hstep : loopStep lc t = (true, t) := by simp [loopStep, h]
    simp only [loopFires, hstep]
    simp [loopFires_eq_zero d ts t
      (fun x hx => hts x (List.mem_cons_of_mem _ hx)) ht]

/-- C9: the loop body's check fires exactly when the current day-of-month
differs from the one recorded at the last check; over any run of wake-ups
lying on one calendar day it fires at most once, and exactly once when
the recorded day-of-month differs and at least one wake-up occurs. -/
theorem imageLoop_fires_once_per_day (lc d : PyDatetime)
    (ts : List PyDatetime) (hts : ∀ t ∈ ts, sameCalendarDay t d) :
    (∀ a b : PyDatetime, (loopStep a b).1 = true ↔ a.day ≠ b.day) ∧
    loopFires lc ts ≤ 1 ∧
    (lc.day ≠ d.day → ts ≠ [] → loopFires lc ts = 1) := by
  have hdays : ∀ t ∈ ts, t.day = d.day := fun t ht => (hts t ht).2.2
  refine ⟨?_, ?_, ?_⟩
  · intro a b
    by_cases h : a.day = b.day <;> simp [loopStep, h]
  · exact loopFires_le_one d.day ts lc hdays
  · intro hlc hne
    exact loopFires_eq_one d.day ts lc hdays hlc hne

/-- Witness for C9: two wake-ups on the same calendar day after a check
recorded the previous day fire the transition exactly once. -/
theorem imageLoop_fires_once_per_day_witness :
    loopFires ⟨2026, 10, 11⟩ [⟨2026, 10, 12⟩, ⟨2026, 10, 12⟩] ≤ 1 ∧
    loopFires ⟨2026, 10, 11⟩ [⟨2026, 10, 12⟩, ⟨2026, 10, 12⟩] = 1 := by
  have h := imageLoop_fires_once_per_day ⟨2026, 10, 11⟩ ⟨2026, 10, 12⟩
    [⟨2026, 10, 12⟩, ⟨2026, 10, 12⟩]
    (by intro t ht; fin_cases ht <;> exact ⟨rfl, rfl, rfl⟩)
  exact ⟨h.2.1, h.2.2 (by decide) (by decide)⟩

end ServerManage
